import Mathlib

set_option linter.unusedVariables false

namespace Cape

/-- Calendar timestamp as stored in the Task.clock column (second precision),
mirroring the fields of a Python datetime value used by database.py. -/
structure DateTime where
  year : Nat
  month : Nat
  day : Nat
  hour : Nat
  minute : Nat
  second : Nat
deriving DecidableEq, Repr

/-- Models datetime.utcfromtimestamp(0): the epoch sentinel stored when no
valid clock is supplied (Database.add). -/
def epochDT : DateTime := ⟨1970, 1, 1, 0, 0, 0⟩

/-- Task status enumeration: the TASK_* constants of database.py.
distributed_completed is the non-persisted completion alias accepted by
set_status; the Enum column persists only the other eight values. -/
inductive TaskStatus where
  | pending
  | running
  | completed
  | reported
  | recovered
  | failed_analysis
  | failed_processing
  | failed_reporting
  | distributed_completed
deriving DecidableEq, Repr

/-- Task categories, as produced by obj.__class__.__name__.lower() in
Database.add for the four submission object classes File, URL, PCAP, Static. -/
inductive Category where
  | file
  | url
  | pcap
  | static
deriving DecidableEq, Repr

/-- A submission object handed to Database.add: File, URL, PCAP or Static from
lib.cuckoo.common.objects, carrying its file path or url string. -/
inductive SubObj where
  | file (file_path : String)
  | url (url : String)
  | pcap (file_path : String)
  | static (file_path : String)
deriving DecidableEq, Repr

/-- obj.__class__.__name__.lower() as assigned to task.category. -/
def categoryOf : SubObj → Category
  | .file _ => .file
  | .url _ => .url
  | .pcap _ => .pcap
  | .static _ => .static

/-- The target string of a submission object: obj.file_path or obj.url. -/
def targetOf : SubObj → String
  | .file p => p
  | .url u => u
  | .pcap p => p
  | .static p => p

/-- The content identity produced by hashing a file, i.e. the values of
File(path).get_md5() etc. consumed by Database.add and register_sample. -/
structure FileIdentity where
  md5 : String
  crc32 : String
  sha1 : String
  sha256 : String
  sha512 : String
  ssdeep : Option String
  file_size : Nat
  file_type : String
deriving DecidableEq, Repr

/-- A row of the samples table (class Sample in database.py).  The table
carries a unique index on sha256 (sha256_index) and plain indexes on md5 and
sha1. -/
structure Sample where
  id : Nat
  file_size : Nat
  file_type : String
  md5 : String
  crc32 : String
  sha1 : String
  sha256 : String
  sha512 : String
  ssdeep : Option String
  parent : Option Nat
deriving DecidableEq, Repr

/-- A row of the tasks table (class Task in database.py), restricted to the
columns the verified operations read or write.  Tag association rows are
flattened to the list of tag names.  Timestamp columns other than clock are
logical instants (Nat). -/
structure Task where
  id : Nat
  target : String
  category : Category
  timeout : Nat
  priority : Int
  custom : String
  machine : String
  package : String
  options : String
  platform : String
  memory : Bool
  enforce_timeout : Bool
  tags : List String
  clock : DateTime
  added_on : Nat
  started_on : Option Nat
  completed_on : Option Nat
  status : TaskStatus
  sample_id : Option Nat
  parent_id : Option Nat
deriving DecidableEq, Repr

/-- A row of the machines table (class Machine in database.py); tag
associations flattened to names. -/
structure Machine where
  id : Nat
  name : String
  label : String
  ip : String
  platform : String
  tags : List String
  interface : Option String
  snapshot : Option String
  locked : Bool
  locked_changed_on : Option Nat
  status : Option String
  status_changed_on : Option Nat
  resultserver_ip : String
  resultserver_port : String
deriving DecidableEq, Repr

/-- The durable store: the tables touched by the verified operations, each in
insertion order (ascending autoincrement primary key), plus the next fresh
primary-key values. -/
structure Db where
  tasks : List Task
  samples : List Sample
  machines : List Machine
  nextTaskId : Nat
  nextSampleId : Nat
deriving DecidableEq, Repr

/-- Result of a Database call: ok carries the Python return value, raised
marks an uncaught Python exception escaping the method. -/
inductive DbResult (α : Type) where
  | ok (val : α)
  | raised
deriving DecidableEq, Repr

/-- The clock argument of Database.add: either a string to be parsed with
strptime, or an already-constructed datetime (as passed by reschedule). -/
inductive ClockVal where
  | str (s : String)
  | dt (d : DateTime)
deriving DecidableEq, Repr

/-- Value of a decimal digit character. -/
def digitVal (c : Char) : Nat := c.toNat - 48

/-- One numeric field of strptime under a 1-or-2 digit directive such as %m.
CPython compiles %m to the regex alternation 1[0-2]|0[1-9]|[1-9]: a two-digit
match must satisfy ok2, a single-digit match must satisfy ok1, and a run of
three or more digits can never complete the surrounding pattern because every
following format character is a non-digit separator (or the end of input). -/
def parseNum2 (ok1 ok2 : Nat → Bool) : List Char → Option (Nat × List Char)
  | [] => none
  | c1 :: rest =>
    if c1.isDigit then
      match rest with
      | c2 :: rest2 =>
        if c2.isDigit then
          match rest2 with
          | c3 :: _ =>
            if c3.isDigit then none
            else if ok2 (digitVal c1 * 10 + digitVal c2) then
              some (digitVal c1 * 10 + digitVal c2, rest2)
            else none
          | [] =>
            if ok2 (digitVal c1 * 10 + digitVal c2) then
              some (digitVal c1 * 10 + digitVal c2, [])
            else none
        else if ok1 (digitVal c1) then some (digitVal c1, rest) else none
      | [] => if ok1 (digitVal c1) then some (digitVal c1, []) else none
    else none

/-- The %Y directive: exactly four digits. -/
def parseYear : List Char → Option (Nat × List Char)
  | a :: b :: c :: d :: rest =>
    if a.isDigit && b.isDigit && c.isDigit && d.isDigit then
      some (digitVal a * 1000 + digitVal b * 100 + digitVal c * 10 + digitVal d, rest)
    else none
  | _ => none

/-- A literal separator character of the format. -/
def expectChar (c : Char) : List Char → Option (List Char)
  | x :: rest => if x == c then some rest else none
  | [] => none

/-- Literal whitespace in a strptime format matches one or more whitespace
characters. -/
def skipWS : List Char → Option (List Char)
  | c :: rest => if c.isWhitespace then some (rest.dropWhile (·.isWhitespace)) else none
  | [] => none

/-- Gregorian leap year, as validated by the datetime constructor. -/
def isLeap (y : Nat) : Bool := (y % 4 == 0 && y % 100 != 0) || y % 400 == 0

/-- Length of a month, as validated by the datetime constructor. -/
def daysInMonth (y m : Nat) : Nat :=
  if m == 2 then (if isLeap y then 29 else 28)
  else if m == 4 || m == 6 || m == 9 || m == 11 then 30
  else 31

/-- datetime.strptime(s, "%m-%d-%Y %H:%M:%S") of Database.add: the field
regexes of CPython strptime followed by the range validation performed by the
datetime constructor (year at least 1, day within the month, second at most
59 even though the %S regex admits leap seconds 60 and 61).  Returns none
exactly when the Python call raises ValueError. -/
def parseClock (s : String) : Option DateTime := do
  let (m, r1) ← parseNum2 (fun v => decide (1 ≤ v)) (fun v => decide (1 ≤ v ∧ v ≤ 12)) s.data
  let r2 ← expectChar '-' r1
  let (d, r3) ← parseNum2 (fun v => decide (1 ≤ v)) (fun v => decide (1 ≤ v ∧ v ≤ 31)) r2
  let r4 ← expectChar '-' r3
  let (y, r5) ← parseYear r4
  let r6 ← skipWS r5
  let (hh, r7) ← parseNum2 (fun _ => true) (fun v => decide (v ≤ 23)) r6
  let r8 ← expectChar ':' r7
  let (mi, r9) ← parseNum2 (fun _ => true) (fun v => decide (v ≤ 59)) r8
  let r10 ← expectChar ':' r9
  let (ss, r11) ← parseNum2 (fun _ => true) (fun v => decide (v ≤ 61)) r10
  if r11.isEmpty && decide (1 ≤ y) && decide (d ≤ daysInMonth y m) && decide (ss ≤ 59) then
    some ⟨y, m, d, hh, mi, ss⟩
  else none

/-- The clock resolution of Database.add: a falsy clock (None or the empty
string) becomes the epoch sentinel; a non-empty string is parsed with
strptime and falls back to the epoch sentinel on ValueError (with a logged
warning); a datetime value is stored as given. -/
def resolveClock (clock : Option ClockVal) : DateTime :=
  match clock with
  | none => epochDT
  | some (.str s) =>
    if s == "" then epochDT
    else
      match parseClock s with
      | some d => d
      | none => epochDT
  | some (.dt d) => d

/-- str.split(",") of Python: splitting the empty string yields one empty
piece, and separators at the ends yield empty pieces. -/
def splitComma : List Char → List String
  | [] => [""]
  | c :: rest =>
    match splitComma rest with
    | [] => []
    | s :: ss =>
      if c == ',' then "" :: s :: ss
      else ⟨c :: s.data⟩ :: ss

/-- tags.replace(" ", "").split(",") applied to a truthy tags argument; a falsy
tags argument (None or "") attaches no tags (Database.add). -/
def pyTags (tags : Option String) : List String :=
  match tags with
  | none => []
  | some t => if t == "" then [] else splitComma (t.data.filter (fun c => c != ' '))

/-- ",".join(names) of Python, used by reschedule to flatten tag names. -/
def joinComma : List String → String
  | [] => ""
  | [t] => t
  | t :: ts => t ++ "," ++ joinComma ts

/-- The 64-bit steering of Database.add: when the detected file type contains
"PE32+" and no machine was requested, the tag "64_bit" is appended to the
comma-separated tags string (or becomes the whole string when tags is falsy). -/
def tagsWith64 (file_type : String) (machine : String) (tags : Option String) : Option String :=
  if decide (List.IsInfix "PE32+".data file_type.data) && machine == "" then
    match tags with
    | some t => if t == "" then some "64_bit" else some (t ++ ",64_bit")
    | none => some "64_bit"
  else tags

/-- The filesystem visible to the store layer: a table from path to the
content identity File(path) would compute.  A path is absent when
os.path.exists is false. -/
def fsIdentity (fs : List (String × FileIdentity)) (p : String) : FileIdentity :=
  (((fs.find? (fun e => e.1 == p)).map (fun e => e.2)).getD ⟨"", "", "", "", "", none, 0, ""⟩)

/-- Whether os.path.exists(p) holds in the modelled filesystem. -/
def fsExists (fs : List (String × FileIdentity)) (p : String) : Bool :=
  fs.any (fun e => e.1 == p)

/-- The Sample row built by Database.add / register_sample from a content
identity, with a fresh primary key. -/
def mkSample (id : Nat) (idy : FileIdentity) (parent : Option Nat) : Sample :=
  { id := id
    file_size := idy.file_size
    file_type := idy.file_type
    md5 := idy.md5
    crc32 := idy.crc32
    sha1 := idy.sha1
    sha256 := idy.sha256
    sha512 := idy.sha512
    ssdeep := idy.ssdeep
    parent := parent }

/-- Outcome of committing a new Sample row (the session.add(sample) /
session.commit() block shared by Database.add and register_sample). -/
inductive SampleOutcome where
  | committed (s : Sample)
  | dedup (s : Sample)
  | failed
  | crashed
deriving DecidableEq, Repr

/-- The sample insert of Database.add and register_sample: committing the new
row raises IntegrityError exactly when another row already carries the same
sha256 (the unique sha256_index); the handler rolls back and re-reads the
first row with the same md5.  If that re-read finds nothing the method later
dereferences None and an AttributeError escapes (crashed).  A non-integrity
commit failure (failed, controlled here by the commitFails oracle) makes the
caller return None with the store unchanged. -/
def sampleInsert (db : Db) (idy : FileIdentity) (parent : Option Nat)
    (commitFails : Bool) : SampleOutcome × Db :=
  if db.samples.any (fun s => s.sha256 == idy.sha256) then
    match db.samples.find? (fun s => s.md5 == idy.md5) with
    | some s => (.dedup s, db)
    | none => (.crashed, db)
  else if commitFails then (.failed, db)
  else
    let s := mkSample db.nextSampleId idy parent
    (.committed s, { db with samples := db.samples ++ [s], nextSampleId := db.nextSampleId + 1 })

/-- Database.register_sample(obj): the isinstance(obj, File) or
isinstance(obj, PCAP) guard admits File, PCAP and Static objects (Static
subclasses File in objects.py); a URL object falls to the else branch and
returns None.  On success returns the id of the committed or re-read row. -/
def register_sample (db : Db) (fs : List (String × FileIdentity)) (commitFails : Bool)
    (obj : SubObj) : DbResult (Option Nat) × Db :=
  match obj with
  | .file p | .pcap p | .static p =>
    let idy := fsIdentity fs p
    match sampleInsert db idy none commitFails with
    | (.committed s, db1) => (.ok (some s.id), db1)
    | (.dedup s, db1) => (.ok (some s.id), db1)
    | (.failed, db1) => (.ok none, db1)
    | (.crashed, db1) => (.raised, db1)
  | .url _ => (.ok none, db)

/-- The per-row effect of Database.set_status: every status except the
distributed_completed alias is written through unconditionally; entering
running stamps started_on, entering completed (or the alias) stamps
completed_on. -/
def applyStatus (now : Nat) (status : TaskStatus) (row : Task) : Task :=
  let row := if status != .distributed_completed then { row with status := status } else row
  if status == .running then { row with started_on := some now }
  else if status == .completed || status == .distributed_completed then
    { row with completed_on := some now }
  else row

/-- Database.set_status(task_id, status): looks the row up by primary key and
applies applyStatus; a missing id is a no-op. -/
def set_status (db : Db) (now : Nat) (task_id : Nat) (status : TaskStatus) : Db :=
  { db with tasks := db.tasks.map (fun r => if r.id == task_id then applyStatus now status r else r) }

/-- The candidate rows of Database.fetch: status pending, restricted to the
requested machine label when the machine argument is non-empty. -/
def pendingCands (db : Db) (machine : String) : List Task :=
  db.tasks.filter (fun t => t.status == TaskStatus.pending && (machine == "" || t.machine == machine))

/-- Strict preference of the ORDER BY "priority desc, added_on" clause of
Database.fetch: t beats best when its priority is higher, or equal with an
earlier added_on. -/
def beats (t best : Task) : Bool :=
  best.priority < t.priority || (t.priority == best.priority && t.added_on < best.added_on)

/-- .first() of the ordered query: the first row under the ORDER BY, i.e. the
stable minimum, keeping the earlier row on full ties. -/
def pickBest (best : Task) : List Task → Task
  | [] => best
  | t :: ts => pickBest (if beats t best then t else best) ts

/-- Database.fetch(lock, machine): selects the first pending row under
ORDER BY "priority desc, added_on" (optionally filtered by machine), then,
when lock is set, transitions it to running via set_status and returns the
refreshed row. -/
def fetch (db : Db) (now : Nat) (lock : Bool) (machine : String) : Option Task × Db :=
  match pendingCands db machine with
  | [] => (none, db)
  | t :: ts =>
    let row := pickBest t ts
    if lock then
      let db' := set_status db now row.id .running
      (db'.tasks.find? (fun u => u.id == row.id), db')
    else (some row, db)

/-- The candidate set of Database.lock_machine: filter by label, then by
platform, then by each required tag (a machine must carry every tag); with no
criterion the whole machines table. -/
def lockCandidates (db : Db) (label platform : Option String) (tags : List String) :
    List Machine :=
  let ms := db.machines
  let ms := match label with
    | some l => ms.filter (fun m => m.label == l)
    | none => ms
  let ms := match platform with
    | some p => ms.filter (fun m => m.platform == p)
    | none => ms
  tags.foldl (fun acc tag => acc.filter (fun m => m.tags.contains tag)) ms

/-- Database.lock_machine(label, platform, tags).  Combining label with
platform or with tags is logged and returns None with the store untouched.
An empty candidate set raises CuckooOperationalError (the .error case).  The
first unlocked candidate is locked, stamped and returned; if every candidate
is locked the call returns None. -/
def lock_machine (db : Db) (now : Nat) (label platform : Option String)
    (tags : List String) : Except String (Option Machine) × Db :=
  if label.isSome && platform.isSome then (.ok none, db)
  else if label.isSome && !tags.isEmpty then (.ok none, db)
  else
    let cands := lockCandidates db label platform tags
    if cands.isEmpty then (.error "No machines match selection criteria.", db)
    else
      match cands.find? (fun m => !m.locked) with
      | none => (.ok none, db)
      | some m =>
        let m' := { m with locked := true, locked_changed_on := some now }
        (.ok (some m'),
          { db with machines := db.machines.map (fun x => if x.id == m.id then m' else x) })

/-- started_on at creation: PCAP and Static tasks are stamped immediately
since no machine will run them (Database.add). -/
def startedAtCreation (obj : SubObj) (now : Nat) : Option Nat :=
  match obj with
  | .pcap _ | .static _ => some now
  | _ => none

/-- The Task row committed by Database.add. -/
def mkTask (id : Nat) (target : String) (category : Category) (timeout : Nat)
    (package options : String) (priority : Int) (custom machine platform : String)
    (tagList : List String) (memory enforce_timeout : Bool) (clock : DateTime)
    (added_on : Nat) (started_on : Option Nat) (sample_id parent_id : Option Nat) : Task :=
  { id := id
    target := target
    category := category
    timeout := timeout
    priority := priority
    custom := custom
    machine := machine
    package := package
    options := options
    platform := platform
    memory := memory
    enforce_timeout := enforce_timeout
    tags := tagList
    clock := clock
    added_on := added_on
    started_on := started_on
    completed_on := none
    status := .pending
    sample_id := sample_id
    parent_id := parent_id }

/-- Database.add(obj, ...): normalizes a falsy priority to 1; for file-bearing
objects (File, PCAP, Static) registers the sample with md5 fallback dedup,
appends the 64_bit steering tag, and stamps started_on for PCAP/Static; builds
the Task row with the resolved clock and comma-split tags; commits it.  A
failing sample commit or task commit is caught, rolled back and reported as
None — but a Sample row committed earlier in the same call stays committed. -/
def add (db : Db) (now : Nat) (fs : List (String × FileIdentity))
    (sampleCommitFails taskCommitFails : Bool) (obj : SubObj) (timeout : Nat)
    (package options : String) (priority : Int) (custom machine platform : String)
    (tags : Option String) (memory enforce_timeout : Bool) (clock : Option ClockVal)
    (parent_id sample_parent_id : Option Nat) : DbResult (Option Nat) × Db :=
  let priority := if priority == 0 then 1 else priority
  match obj with
  | .url u =>
    let task := mkTask db.nextTaskId u .url timeout package options priority custom
      machine platform (pyTags tags) memory enforce_timeout (resolveClock clock) now
      none none parent_id
    if taskCommitFails then (.ok none, db)
    else (.ok (some db.nextTaskId),
      { db with tasks := db.tasks ++ [task], nextTaskId := db.nextTaskId + 1 })
  | _ =>
    let p := targetOf obj
    let idy := fsIdentity fs p
    match sampleInsert db idy sample_parent_id sampleCommitFails with
    | (.failed, db1) => (.ok none, db1)
    | (.crashed, db1) => (.raised, db1)
    | (.committed s, db1) | (.dedup s, db1) =>
      let tags := tagsWith64 idy.file_type machine tags
      let task := mkTask db1.nextTaskId p (categoryOf obj) timeout package options priority
        custom machine platform (pyTags tags) memory enforce_timeout (resolveClock clock) now
        (startedAtCreation obj now) (some s.id) parent_id
      if taskCommitFails then (.ok none, db1)
      else (.ok (some db1.nextTaskId),
        { db1 with tasks := db1.tasks ++ [task], nextTaskId := db1.nextTaskId + 1 })

/-- Database.add_path: a falsy file path (None or "") or a path that does not
exist on disk is logged and returns None before anything touches the store;
otherwise normalizes falsy timeout/priority and delegates to add with a File
object. -/
def add_path (db : Db) (now : Nat) (fs : List (String × FileIdentity))
    (sampleCommitFails taskCommitFails : Bool) (file_path : Option String) (timeout : Nat)
    (package options : String) (priority : Int) (custom machine platform : String)
    (tags : Option String) (memory enforce_timeout : Bool) (clock : Option ClockVal)
    (parent_id sample_parent_id : Option Nat) : DbResult (Option Nat) × Db :=
  match file_path with
  | none => (.ok none, db)
  | some p =>
    if p == "" || !fsExists fs p then (.ok none, db)
    else
      let priority := if priority == 0 then 1 else priority
      add db now fs sampleCommitFails taskCommitFails (.file p) timeout package options
        priority custom machine platform tags memory enforce_timeout clock
        parent_id sample_parent_id

/-- Database.add_url: normalizes falsy timeout/priority and delegates to add
with a URL object. -/
def add_url (db : Db) (now : Nat) (fs : List (String × FileIdentity))
    (sampleCommitFails taskCommitFails : Bool) (url : String) (timeout : Nat)
    (package options : String) (priority : Int) (custom machine platform : String)
    (tags : Option String) (memory enforce_timeout : Bool) (clock : Option ClockVal)
    (parent_id : Option Nat) : DbResult (Option Nat) × Db :=
  let priority := if priority == 0 then 1 else priority
  add db now fs sampleCommitFails taskCommitFails (.url url) timeout package options
    priority custom machine platform tags memory enforce_timeout clock parent_id none

/-- Database.add_pcap: delegates to add with a PCAP object. -/
def add_pcap (db : Db) (now : Nat) (fs : List (String × FileIdentity))
    (sampleCommitFails taskCommitFails : Bool) (file_path : String) (timeout : Nat)
    (package options : String) (priority : Int) (custom machine platform : String)
    (tags : Option String) (memory enforce_timeout : Bool) (clock : Option ClockVal)
    (parent_id : Option Nat) : DbResult (Option Nat) × Db :=
  add db now fs sampleCommitFails taskCommitFails (.pcap file_path) timeout package options
    priority custom machine platform tags memory enforce_timeout clock parent_id none

/-- Database.add_static: delegates to add with a Static object. -/
def add_static (db : Db) (now : Nat) (fs : List (String × FileIdentity))
    (sampleCommitFails taskCommitFails : Bool) (file_path : String) (timeout : Nat)
    (package options : String) (priority : Int) (custom machine platform : String)
    (tags : Option String) (memory enforce_timeout : Bool) (clock : Option ClockVal)
    (parent_id : Option Nat) : DbResult (Option Nat) × Db :=
  add db now fs sampleCommitFails taskCommitFails (.static file_path) timeout package options
    priority custom machine platform tags memory enforce_timeout clock parent_id none

/-- The tags argument reschedule computes: ",".join of the original tag names
when the association is non-empty, otherwise the falsy empty list (modelled as
none, since a falsy tags argument attaches no tags in add). -/
def reschedTags (task : Task) : Option String :=
  if task.tags.isEmpty then none else some (joinComma task.tags)

/-- Database.reschedule(task_id): looks the task up (None if missing), marks
the original row recovered, then re-submits through the add variant of the
original category, carrying forward target, timeout, package, options,
priority, custom, machine, platform, flattened tag names, memory,
enforce_timeout and clock. -/
def reschedule (db : Db) (now : Nat) (fs : List (String × FileIdentity))
    (sampleCommitFails taskCommitFails : Bool) (task_id : Nat) :
    DbResult (Option Nat) × Db :=
  match db.tasks.find? (fun t => t.id == task_id) with
  | none => (.ok none, db)
  | some task =>
    let db1 : Db :=
      { db with tasks := db.tasks.map (fun r =>
          if r.id == task_id then { r with status := TaskStatus.recovered } else r) }
    let tags := reschedTags task
    match task.category with
    | .file =>
      add_path db1 now fs sampleCommitFails taskCommitFails (some task.target) task.timeout
        task.package task.options task.priority task.custom task.machine task.platform tags
        task.memory task.enforce_timeout (some (.dt task.clock)) none none
    | .url =>
      add_url db1 now fs sampleCommitFails taskCommitFails task.target task.timeout
        task.package task.options task.priority task.custom task.machine task.platform tags
        task.memory task.enforce_timeout (some (.dt task.clock)) none
    | .pcap =>
      add_pcap db1 now fs sampleCommitFails taskCommitFails task.target task.timeout
        task.package task.options task.priority task.custom task.machine task.platform tags
        task.memory task.enforce_timeout (some (.dt task.clock)) none
    | .static =>
      add_static db1 now fs sampleCommitFails taskCommitFails task.target task.timeout
        task.package task.options task.priority task.custom task.machine task.platform tags
        task.memory task.enforce_timeout (some (.dt task.clock)) none

section Lemmas

/-- a is at least as preferred as u under ORDER BY "priority desc, added_on":
higher priority first, then earlier added_on. -/
def goodAs (a u : Task) : Prop :=
  u.priority ≤ a.priority ∧ (u.priority = a.priority → a.added_on ≤ u.added_on)

lemma goodAs_refl (a : Task) : goodAs a a := ⟨le_refl _, fun _ => le_refl _⟩

lemma goodAs_trans {a b c : Task} (h1 : goodAs a b) (h2 : goodAs b c) : goodAs a c := by
  obtain ⟨hp1, ha1⟩ := h1
  obtain ⟨hp2, ha2⟩ := h2
  refine ⟨hp2.trans hp1, fun he => ?_⟩
  have hb : b.priority = a.priority := by omega
  have hc : c.priority = b.priority := by omega
  have := ha1 hb
  have := ha2 hc
  omega

lemma goodAs_of_beats {t b : Task} (h : beats t b = true) : goodAs t b := by
  unfold beats at h
  simp only [Bool.or_eq_true, Bool.and_eq_true, decide_eq_true_eq, beq_iff_eq] at h
  rcases h with h | ⟨h1, h2⟩
  · exact ⟨le_of_lt h, fun he => by omega⟩
  · exact ⟨le_of_eq h1.symm, fun _ => le_of_lt h2⟩

lemma goodAs_of_not_beats {t b : Task} (h : ¬ beats t b = true) : goodAs b t := by
  unfold beats at h
  simp only [Bool.or_eq_true, Bool.and_eq_true, decide_eq_true_eq, beq_iff_eq,
    not_or, not_and, not_lt] at h
  obtain ⟨h1, h2⟩ := h
  exact ⟨h1, fun he => h2 he⟩

lemma pickBest_mem (b : Task) (ts : List Task) : pickBest b ts ∈ b :: ts := by
  induction ts generalizing b with
  | nil => simp [pickBest]
  | cons t ts ih =>
    have h := ih (if beats t b then t else b)
    simp only [pickBest]
    by_cases hb : beats t b = true
    · rw [if_pos hb] at h ⊢
      exact List.mem_cons_of_mem b h
    · rw [if_neg hb] at h ⊢
      rcases List.mem_cons.mp h with h' | h'
      · rw [h']
        exact List.mem_cons_self b (t :: ts)
      · exact List.mem_cons_of_mem b (List.mem_cons_of_mem t h')

lemma pickBest_goodAs (b : Task) (ts : List Task) :
    ∀ u ∈ b :: ts, goodAs (pickBest b ts) u := by
  induction ts generalizing b with
  | nil =>
    intro u hu
    rcases List.mem_cons.mp hu with rfl | hu'
    · exact goodAs_refl _
    · cases hu'
  | cons t ts ih =>
    intro u hu
    simp only [pickBest]
    have hgb : goodAs (if beats t b then t else b) b := by
      by_cases hb : beats t b = true
      · rw [if_pos hb]; exact goodAs_of_beats hb
      · rw [if_neg hb]; exact goodAs_refl _
    have hgt : goodAs (if beats t b then t else b) t := by
      by_cases hb : beats t b = true
      · rw [if_pos hb]; exact goodAs_refl _
      · rw [if_neg hb]; exact goodAs_of_not_beats hb
    have hpick : goodAs (pickBest (if beats t b then t else b) ts) (if beats t b then t else b) :=
      ih (if beats t b then t else b) (if beats t b then t else b)
        (List.mem_cons_self (if beats t b then t else b) ts)
    rcases List.mem_cons.mp hu with rfl | hu'
    · exact goodAs_trans hpick hgb
    rcases List.mem_cons.mp hu' with rfl | hu''
    · exact goodAs_trans hpick hgt
    · exact ih (if beats t b then t else b) u (List.mem_cons_of_mem _ hu'')

lemma find?_map_update {l : List Task} {tid : Nat} {f : Task → Task} {t : Task}
    (hnd : (l.map (fun r => r.id)).Nodup) (ht : t ∈ l) (hid : t.id = tid)
    (hf : (f t).id = t.id) :
    (l.map (fun r => if r.id == tid then f r else r)).find? (fun u => u.id == tid) =
      some (f t) := by
  induction l with
  | nil => cases ht
  | cons a l ih =>
    rw [List.map_cons]
    rcases List.mem_cons.mp ht with rfl | hmem
    · rw [if_pos (by simp [hid])]
      exact List.find?_cons_of_pos _ (by simp [hf, hid])
    · have h1 : a.id ∉ l.map (fun r => r.id) := (List.nodup_cons.mp hnd).1
      have h2 : t.id ∈ l.map (fun r => r.id) := List.mem_map_of_mem _ hmem
      have hne : ¬ (a.id == tid) = true := by
        simp only [beq_iff_eq]
        intro h
        exact h1 (by rw [h, ← hid]; exact h2)
      have hne' : (a.id == tid) = false := by simpa using hne
      rw [if_neg hne]
      have hstep : List.find? (fun u => u.id == tid)
          (a :: l.map (fun r => if r.id == tid then f r else r)) =
          List.find? (fun u => u.id == tid)
          (l.map (fun r => if r.id == tid then f r else r)) := by
        simp only [List.find?, hne']
      rw [hstep]
      exact ih (List.nodup_cons.mp hnd).2 hmem

end Lemmas

section Fixtures

/-- The empty store right after schema creation. -/
def emptyDb : Db := ⟨[], [], [], 1, 1⟩

/-- Store after submitting three url tasks with priorities 1, 5, 3 in that
order. -/
def prioDb3 : Db :=
  (add_url (add_url (add_url emptyDb 0 [] false false "u1" 0 "" "" 1 "" "" "" none
      false false none none).2 1 [] false false "u2" 0 "" "" 5 "" "" "" none
      false false none none).2 2 [] false false "u3" 0 "" "" 3 "" "" "" none
      false false none none).2

/-- Store after submitting two url tasks with equal priority, "first" then
"second". -/
def fifoDb2 : Db :=
  (add_url (add_url emptyDb 0 [] false false "first" 0 "" "" 1 "" "" "" none
      false false none none).2 0 [] false false "second" 0 "" "" 1 "" "" "" none
      false false none none).2

/-- A configured machine row. -/
def mkMachine (id : Nat) (label platform : String) (tags : List String)
    (locked : Bool) : Machine :=
  ⟨id, label, label, "192.168.56.101", platform, tags, none, none, locked, none,
   none, none, "192.168.56.1", "2042"⟩

/-- Three windows machines; machine 1 locked, machines 2 and 3 free. -/
def machDb : Db :=
  ⟨[], [],
   [mkMachine 1 "m1" "windows" [] true, mkMachine 2 "m2" "windows" [] false,
    mkMachine 3 "m3" "windows" [] false], 1, 1⟩

/-- A single windows machine, already locked. -/
def lockedDb : Db := ⟨[], [], [mkMachine 1 "w1" "windows" [] true], 1, 1⟩

end Fixtures

/-- Claim C1: Database.fetch returns the pending Task with the highest
priority, ties broken by earliest added_on, restricted to Tasks whose
requested machine equals the given label when one is supplied; a found Task
is transitioned to running with started_on stamped before being returned, and
with no matching pending Task fetch returns None.  In particular tasks
submitted with priorities 1, 5, 3 are claimed in order 5, 3, 1, and two
equal-priority tasks are claimed in submission order. -/
theorem fetch_selects_highest_priority_earliest
    (db : Db) (now : Nat) (machine : String)
    (hnd : (db.tasks.map (fun r => r.id)).Nodup) :
    (pendingCands db machine = [] → fetch db now true machine = (none, db)) ∧
    (∀ t ts, pendingCands db machine = t :: ts →
      pickBest t ts ∈ pendingCands db machine ∧
      (pickBest t ts).status = .pending ∧
      (machine ≠ "" → (pickBest t ts).machine = machine) ∧
      (∀ u ∈ pendingCands db machine,
        u.priority ≤ (pickBest t ts).priority ∧
        (u.priority = (pickBest t ts).priority → (pickBest t ts).added_on ≤ u.added_on)) ∧
      fetch db now true machine =
        (some { pickBest t ts with status := .running, started_on := some now },
         set_status db now (pickBest t ts).id .running)) ∧
    ((fetch prioDb3 10 true "").1.map (fun t => t.priority) = some 5 ∧
     (fetch (fetch prioDb3 10 true "").2 11 true "").1.map (fun t => t.priority) = some 3 ∧
     (fetch (fetch (fetch prioDb3 10 true "").2 11 true "").2 12 true "").1.map
       (fun t => t.priority) = some 1 ∧
     (fetch (fetch (fetch (fetch prioDb3 10 true "").2 11 true "").2 12 true "").2
       13 true "").1 = none ∧
     (fetch fifoDb2 10 true "").1.map (fun t => t.target) = some "first" ∧
     (fetch (fetch fifoDb2 10 true "").2 11 true "").1.map (fun t => t.target) =
       some "second") := by
  refine ⟨?_, ?_, by decide⟩
  · intro h
    simp [fetch, h]
  · intro t ts h
    have hmem : pickBest t ts ∈ pendingCands db machine := by
      rw [h]; exact pickBest_mem t ts
    have hfilter := List.mem_filter.mp hmem
    have hpred := hfilter.2
    simp only [Bool.and_eq_true, Bool.or_eq_true, beq_iff_eq] at hpred
    refine ⟨hmem, hpred.1, ?_, ?_, ?_⟩
    · intro hm
      rcases hpred.2 with h' | h'
      · exact absurd h' hm
      · exact h'
    · intro u hu
      have := pickBest_goodAs t ts u (h ▸ hu)
      exact ⟨this.1, this.2⟩
    · have htask : pickBest t ts ∈ db.tasks := hfilter.1
      simp only [fetch, h]
      have happly : applyStatus now .running (pickBest t ts) =
          { pickBest t ts with status := .running, started_on := some now } := rfl
      have hfind := @find?_map_update db.tasks (pickBest t ts).id
        (applyStatus now TaskStatus.running) (pickBest t ts) hnd htask rfl rfl
      rw [happly] at hfind
      simp only [set_status]
      rw [hfind]
      rfl

/-- Witness for C1 at a concrete store: the id-uniqueness hypothesis holds for
the fixture and the claimed priority and FIFO orders are observed. -/
theorem fetch_selects_highest_priority_earliest_witness :
    (prioDb3.tasks.map (fun r => r.id)).Nodup ∧
    ((fetch prioDb3 10 true "").1.map (fun t => t.priority) = some 5 ∧
     (fetch (fetch prioDb3 10 true "").2 11 true "").1.map (fun t => t.priority) = some 3 ∧
     (fetch (fetch (fetch prioDb3 10 true "").2 11 true "").2 12 true "").1.map
       (fun t => t.priority) = some 1 ∧
     (fetch (fetch (fetch (fetch prioDb3 10 true "").2 11 true "").2 12 true "").2
       13 true "").1 = none ∧
     (fetch fifoDb2 10 true "").1.map (fun t => t.target) = some "first" ∧
     (fetch (fetch fifoDb2 10 true "").2 11 true "").1.map (fun t => t.target) =
       some "second") :=
  ⟨by decide, (fetch_selects_highest_priority_earliest prioDb3 10 "" (by decide)).2.2⟩

section StatusLemmas

lemma map_update_eq_self_of_find?_none {l : List Task} {tid : Nat} {f : Task → Task}
    (h : l.find? (fun r => r.id == tid) = none) :
    l.map (fun r => if r.id == tid then f r else r) = l := by
  induction l with
  | nil => rfl
  | cons a l ih =>
    by_cases ha : (a.id == tid) = true
    · simp only [List.find?, ha] at h
      exact Option.noConfusion h
    · have ha' : (a.id == tid) = false := by simpa using ha
      simp only [List.find?, ha'] at h
      rw [List.map_cons, if_neg ha, ih h]

lemma applyStatus_id (now : Nat) (st : TaskStatus) (t : Task) :
    (applyStatus now st t).id = t.id := by
  cases st <;> rfl

end StatusLemmas

/-- A Task row resting in the terminal reported state. -/
def reportedRow : Task :=
  { mkTask 1 "u" .url 0 "" "" 1 "" "" "" [] false false epochDT 0 none none none with
      status := TaskStatus.reported }

/-- A store holding only reportedRow. -/
def dbReported : Db := ⟨[reportedRow], [], [], 2, 1⟩

/-- Claim C4 counterexample: set_status enforces no transition table — it
moves a Task resting in the terminal reported state straight back to pending. -/
theorem set_status_moves_reported_to_pending :
    dbReported.tasks.map (fun t => t.status) = [TaskStatus.reported] ∧
    (set_status dbReported 7 1 .pending).tasks.map (fun t => t.status) =
      [TaskStatus.pending] :=
  ⟨rfl, rfl⟩

/-- Claim C4 amended: set_status enforces no transition table.  It overwrites
the found row's status with any requested value — the distributed_completed
alias excepted, which leaves the status untouched — stamps started_on on
running and completed_on on completed or the alias, leaves every other row
unchanged, and is a no-op for a missing id.  Consequently a status can
regress and a terminal row can be moved, as the counterexample shows. -/
theorem set_status_overwrites_unconditionally
    (db : Db) (now : Nat) (tid : Nat) (st : TaskStatus)
    (hnd : (db.tasks.map (fun r => r.id)).Nodup) :
    (∀ t, db.tasks.find? (fun r => r.id == tid) = some t →
      (set_status db now tid st).tasks.find? (fun r => r.id == tid) =
        some (applyStatus now st t)) ∧
    (db.tasks.find? (fun r => r.id == tid) = none → set_status db now tid st = db) ∧
    (∀ t, (applyStatus now st t).status =
      (if st = .distributed_completed then t.status else st)) ∧
    (∀ t, (applyStatus now st t).started_on =
      (if st = .running then some now else t.started_on)) ∧
    (∀ t, (applyStatus now st t).completed_on =
      (if st = .completed ∨ st = .distributed_completed then some now
       else t.completed_on)) ∧
    (∀ r ∈ db.tasks, r.id ≠ tid → r ∈ (set_status db now tid st).tasks) := by
  refine ⟨?_, ?_, ?_, ?_, ?_, ?_⟩
  · intro t hfind
    have hmem := List.mem_of_find?_eq_some hfind
    have hid : t.id = tid := by simpa using List.find?_some hfind
    exact find?_map_update hnd hmem hid (applyStatus_id now st t)
  · intro h
    simp only [set_status]
    rw [map_update_eq_self_of_find?_none h]
  · intro t; cases st <;> rfl
  · intro t; cases st <;> rfl
  · intro t; cases st <;> rfl
  · intro r hr hne
    simp only [set_status]
    exact List.mem_map.mpr ⟨r, hr, by simp [hne]⟩

/-- Witness for the amended C4 theorem at the concrete store: the reported row
is found and rewritten to pending with the stamps of applyStatus. -/
theorem set_status_overwrites_unconditionally_witness :
    (dbReported.tasks.map (fun r => r.id)).Nodup ∧
    dbReported.tasks.find? (fun r => r.id == 1) = some reportedRow ∧
    (set_status dbReported 7 1 .pending).tasks.find? (fun r => r.id == 1) =
      some (applyStatus 7 .pending reportedRow) :=
  ⟨by decide, rfl,
    (set_status_overwrites_unconditionally dbReported 7 1 .pending (by decide)).1
      reportedRow rfl⟩

section MachineLemmas

lemma foldl_filter_sublist (tags : List String) (ms : List Machine) :
    (tags.foldl (fun acc tag => acc.filter (fun m => m.tags.contains tag)) ms).Sublist ms := by
  induction tags generalizing ms with
  | nil => exact List.Sublist.refl ms
  | cons tg tags ih =>
    exact (ih (ms.filter (fun m => m.tags.contains tg))).trans (List.filter_sublist ms)

lemma lockCandidates_sublist (db : Db) (label platform : Option String)
    (tags : List String) :
    (lockCandidates db label platform tags).Sublist db.machines := by
  unfold lockCandidates
  cases label with
  | none =>
    cases platform with
    | none => exact foldl_filter_sublist tags db.machines
    | some p => exact (foldl_filter_sublist tags _).trans (List.filter_sublist _)
  | some l =>
    cases platform with
    | none => exact (foldl_filter_sublist tags _).trans (List.filter_sublist _)
    | some p =>
      exact ((foldl_filter_sublist tags _).trans (List.filter_sublist _)).trans
        (List.filter_sublist _)

lemma find?_pairwise_min {R : Machine → Machine → Prop} {l : List Machine}
    {p : Machine → Bool} {a : Machine}
    (hp : l.Pairwise R) (hfind : l.find? p = some a) :
    ∀ b ∈ l, p b = true → a = b ∨ R a b := by
  induction l with
  | nil => cases hfind
  | cons h lt ih =>
    obtain ⟨hR, hp'⟩ := List.pairwise_cons.mp hp
    by_cases hph : p h = true
    · have ha : a = h := by
        simp only [List.find?, hph] at hfind
        exact (Option.some.inj hfind).symm
      subst ha
      intro b hb hpb
      rcases List.mem_cons.mp hb with rfl | hb'
      · exact Or.inl rfl
      · exact Or.inr (hR b hb')
    · have hph' : p h = false := by simpa using hph
      simp only [List.find?, hph'] at hfind
      intro b hb hpb
      rcases List.mem_cons.mp hb with rfl | hb'
      · exact absurd hpb hph
      · exact ih hp' hfind b hb' hpb

end MachineLemmas

/-- Claim C5: with valid criteria and at least one unlocked candidate,
lock_machine selects the first unlocked candidate in id-ascending order,
sets locked = true, stamps locked_changed_on, and returns that machine. -/
theorem lock_machine_selects_first_unlocked
    (db : Db) (now : Nat) (label platform : Option String) (tags : List String)
    (hsorted : db.machines.Pairwise (fun a b => a.id < b.id))
    (hv1 : (label.isSome && platform.isSome) = false)
    (hv2 : (label.isSome && !tags.isEmpty) = false)
    (m : Machine)
    (hfind : (lockCandidates db label platform tags).find? (fun x => !x.locked) = some m) :
    m ∈ lockCandidates db label platform tags ∧
    m.locked = false ∧
    (∀ c ∈ lockCandidates db label platform tags, c.locked = false → m.id ≤ c.id) ∧
    lock_machine db now label platform tags =
      (.ok (some { m with locked := true, locked_changed_on := some now }),
       { db with machines := db.machines.map (fun x =>
           if x.id == m.id then { m with locked := true, locked_changed_on := some now }
           else x) }) := by
  have hmem := List.mem_of_find?_eq_some hfind
  have hlocked : m.locked = false := by simpa using List.find?_some hfind
  have hpc : (lockCandidates db label platform tags).Pairwise (fun a b => a.id < b.id) :=
    List.Pairwise.sublist (lockCandidates_sublist db label platform tags) hsorted
  refine ⟨hmem, hlocked, ?_, ?_⟩
  · intro c hc hcl
    rcases find?_pairwise_min hpc hfind c hc (by simp [hcl]) with h | h
    · exact le_of_eq (congrArg Machine.id h)
    · exact le_of_lt h
  · have hne : (lockCandidates db label platform tags).isEmpty = false := by
      rcases hq : lockCandidates db label platform tags with _ | ⟨x, xs⟩
      · rw [hq] at hmem; cases hmem
      · rfl
    simp only [lock_machine, hv1, hv2, hne, hfind, Bool.false_eq_true, if_false]

/-- Witness for C5: in a store with machine 1 locked and machines 2 and 3
free, selecting by platform locks and returns machine 2. -/
theorem lock_machine_selects_first_unlocked_witness :
    lock_machine machDb 5 none (some "windows") [] =
      (.ok (some { mkMachine 2 "m2" "windows" [] false with
                     locked := true,
                     locked_changed_on := some 5 }),
       { machDb with machines := machDb.machines.map (fun x =>
           if x.id == (mkMachine 2 "m2" "windows" [] false).id then
             { mkMachine 2 "m2" "windows" [] false with
                 locked := true,
                 locked_changed_on := some 5 }
           else x) }) :=
  (lock_machine_selects_first_unlocked machDb 5 none (some "windows") [] (by decide)
    rfl rfl (mkMachine 2 "m2" "windows" [] false) rfl).2.2.2

/-- Claim C6: conflicting criteria are rejected with the store untouched; an
empty candidate set (before filtering by lock state) raises the operational
not-found error; all candidates locked yields None as a normal value. -/
theorem lock_machine_nonselecting_outcomes
    (db : Db) (now : Nat) (label platform : Option String) (tags : List String) :
    ((label.isSome && platform.isSome) = true →
      lock_machine db now label platform tags = (.ok none, db)) ∧
    ((label.isSome && !tags.isEmpty) = true →
      lock_machine db now label platform tags = (.ok none, db)) ∧
    ((label.isSome && platform.isSome) = false →
      (label.isSome && !tags.isEmpty) = false →
      lockCandidates db label platform tags = [] →
      lock_machine db now label platform tags =
        (.error "No machines match selection criteria.", db)) ∧
    ((label.isSome && platform.isSome) = false →
      (label.isSome && !tags.isEmpty) = false →
      lockCandidates db label platform tags ≠ [] →
      (∀ c ∈ lockCandidates db label platform tags, c.locked = true) →
      lock_machine db now label platform tags = (.ok none, db)) := by
  refine ⟨?_, ?_, ?_, ?_⟩
  · intro h1
    simp only [lock_machine, h1, if_true]
  · intro h2
    by_cases h1 : (label.isSome && platform.isSome) = true
    · simp only [lock_machine, h1, if_true]
    · have h1' : (label.isSome && platform.isSome) = false := by simpa using h1
      simp only [lock_machine, h1', h2, Bool.false_eq_true, if_false, if_true]
  · intro h1 h2 hempty
    have hne : (lockCandidates db label platform tags).isEmpty = true := by
      rw [hempty]; rfl
    simp only [lock_machine, h1, h2, hne, Bool.false_eq_true, if_false, if_true]
  · intro h1 h2 hnonempty hall
    have hne : (lockCandidates db label platform tags).isEmpty = false := by
      rcases hq : lockCandidates db label platform tags with _ | ⟨x, xs⟩
      · exact absurd hq hnonempty
      · rfl
    have hfind : (lockCandidates db label platform tags).find? (fun x => !x.locked) = none := by
      rw [List.find?_eq_none]
      intro x hx
      simp [hall x hx]
    simp only [lock_machine, h1, h2, hne, hfind, Bool.false_eq_true, if_false]

/-- Witness for C6: conflicting criteria, an unknown platform, and an
all-locked candidate set at concrete stores. -/
theorem lock_machine_nonselecting_outcomes_witness :
    lock_machine machDb 5 (some "m1") (some "windows") [] = (.ok none, machDb) ∧
    lock_machine machDb 5 (some "m1") none ["x86"] = (.ok none, machDb) ∧
    lock_machine machDb 5 none (some "linux") [] =
      (.error "No machines match selection criteria.", machDb) ∧
    lock_machine lockedDb 5 none (some "windows") [] = (.ok none, lockedDb) :=
  ⟨(lock_machine_nonselecting_outcomes machDb 5 (some "m1") (some "windows") []).1 rfl,
   (lock_machine_nonselecting_outcomes machDb 5 (some "m1") none ["x86"]).2.1 rfl,
   (lock_machine_nonselecting_outcomes machDb 5 none (some "linux") []).2.2.1 rfl rfl rfl,
   (lock_machine_nonselecting_outcomes lockedDb 5 none (some "windows") []).2.2.2
     rfl rfl (by decide) (by decide)⟩

section SampleLemmas

lemma all_eq_false_of_any_eq_false {α : Type} {p : α → Bool} {l : List α}
    (h : l.any p = false) : ∀ x ∈ l, p x = false := by
  intro x hx
  by_cases hp : p x = true
  · rw [List.any_eq_true.mpr ⟨x, hx, hp⟩] at h
    exact Bool.noConfusion h
  · simpa using hp

lemma find?_append_left_none {α : Type} {p : α → Bool} {l₁ l₂ : List α}
    (h : ∀ x ∈ l₁, p x = false) : (l₁ ++ l₂).find? p = l₂.find? p := by
  induction l₁ with
  | nil => rfl
  | cons a l ih =>
    have ha := h a (List.mem_cons_self a l)
    simp only [List.cons_append, List.find?, ha]
    exact ih (fun x hx => h x (List.mem_cons_of_mem a hx))

lemma sampleInsert_samples_pairwise {db : Db} {idy : FileIdentity}
    {parent : Option Nat} {cf : Bool}
    (h : db.samples.Pairwise (fun a b => a.sha256 ≠ b.sha256)) :
    ((sampleInsert db idy parent cf).2).samples.Pairwise
      (fun a b => a.sha256 ≠ b.sha256) := by
  unfold sampleInsert
  by_cases hany : db.samples.any (fun s => s.sha256 == idy.sha256) = true
  · rw [if_pos hany]
    rcases hq : db.samples.find? (fun s => s.md5 == idy.md5) with _ | s
    · rw [hq]; exact h
    · rw [hq]; exact h
  · have hany' : db.samples.any (fun s => s.sha256 == idy.sha256) = false := by
      simpa using hany
    rw [if_neg hany]
    by_cases hcf : cf = true
    · rw [if_pos hcf]; exact h
    · rw [if_neg hcf]
      rw [List.pairwise_append]
      refine ⟨h, List.pairwise_singleton _ _, ?_⟩
      intro a ha b hb heq
      have hb' : b = mkSample db.nextSampleId idy parent := by simpa using hb
      have hfalse := all_eq_false_of_any_eq_false hany' a ha
      rw [hb'] at heq
      simp only [mkSample] at heq
      rw [heq] at hfalse
      simp at hfalse

lemma register_sample_pairwise (db : Db) (fs : List (String × FileIdentity))
    (cf : Bool) (obj : SubObj)
    (h : db.samples.Pairwise (fun a b => a.sha256 ≠ b.sha256)) :
    ((register_sample db fs cf obj).2).samples.Pairwise
      (fun a b => a.sha256 ≠ b.sha256) := by
  cases obj with
  | url u => exact h
  | static p =>
    have hcore := @sampleInsert_samples_pairwise db (fsIdentity fs p) none cf h
    unfold register_sample
    rcases hq : sampleInsert db (fsIdentity fs p) none cf with ⟨out, db1⟩
    rw [hq] at hcore
    cases out <;> simp only [hq] <;> exact hcore
  | file p =>
    have hcore := @sampleInsert_samples_pairwise db (fsIdentity fs p) none cf h
    unfold register_sample
    rcases hq : sampleInsert db (fsIdentity fs p) none cf with ⟨out, db1⟩
    rw [hq] at hcore
    cases out <;> simp only [hq] <;> exact hcore
  | pcap p =>
    have hcore := @sampleInsert_samples_pairwise db (fsIdentity fs p) none cf h
    unfold register_sample
    rcases hq : sampleInsert db (fsIdentity fs p) none cf with ⟨out, db1⟩
    rw [hq] at hcore
    cases out <;> simp only [hq] <;> exact hcore

/-- Whether a submission object is a URL (the only category that skips the
Sample registration block of Database.add). -/
def SubObj.isUrl : SubObj → Bool
  | .url _ => true
  | _ => false

lemma add_samples_nonurl (db : Db) (now : Nat) (fs : List (String × FileIdentity))
    (scf tcf : Bool) (obj : SubObj) (timeout : Nat) (package options : String)
    (priority : Int) (custom machine platform : String) (tags : Option String)
    (memory enforce_timeout : Bool) (clock : Option ClockVal)
    (parent_id sample_parent_id : Option Nat) (hnu : obj.isUrl = false) :
    ((add db now fs scf tcf obj timeout package options priority custom machine platform
        tags memory enforce_timeout clock parent_id sample_parent_id).2).samples =
      ((sampleInsert db (fsIdentity fs (targetOf obj)) sample_parent_id scf).2).samples := by
  cases obj with
  | url u => exact Bool.noConfusion hnu
  | file p =>
    rcases hq : sampleInsert db (fsIdentity fs p) sample_parent_id scf with ⟨out, db1⟩
    unfold add
    simp only [targetOf, hq]
    cases out <;> cases tcf <;> rfl
  | pcap p =>
    rcases hq : sampleInsert db (fsIdentity fs p) sample_parent_id scf with ⟨out, db1⟩
    unfold add
    simp only [targetOf, hq]
    cases out <;> cases tcf <;> rfl
  | static p =>
    rcases hq : sampleInsert db (fsIdentity fs p) sample_parent_id scf with ⟨out, db1⟩
    unfold add
    simp only [targetOf, hq]
    cases out <;> cases tcf <;> rfl

lemma add_samples_pairwise (db : Db) (now : Nat) (fs : List (String × FileIdentity))
    (scf tcf : Bool) (obj : SubObj) (timeout : Nat) (package options : String)
    (priority : Int) (custom machine platform : String) (tags : Option String)
    (memory enforce_timeout : Bool) (clock : Option ClockVal)
    (parent_id sample_parent_id : Option Nat)
    (h : db.samples.Pairwise (fun a b => a.sha256 ≠ b.sha256)) :
    ((add db now fs scf tcf obj timeout package options priority custom machine platform
        tags memory enforce_timeout clock parent_id sample_parent_id).2).samples.Pairwise
      (fun a b => a.sha256 ≠ b.sha256) := by
  by_cases hnu : obj.isUrl = false
  · rw [add_samples_nonurl db now fs scf tcf obj timeout package options priority custom
      machine platform tags memory enforce_timeout clock parent_id sample_parent_id hnu]
    exact sampleInsert_samples_pairwise h
  · rcases obj with p | u | p | p <;> simp [SubObj.isUrl] at hnu
    cases tcf <;> exact h

end SampleLemmas

/-- Content identity a: distinct md5/sha1/sha256 but the same sha512 as b. -/
def idyA : FileIdentity :=
  ⟨"md5-a", "c1", "sha1-a", "sha256-a", "sha512-same", none, 4, "data"⟩

/-- Content identity b: shares only sha512 with a. -/
def idyB : FileIdentity :=
  ⟨"md5-b", "c2", "sha1-b", "sha256-b", "sha512-same", none, 4, "data"⟩

/-- Filesystem with two files carrying those identities. -/
def fsAB : List (String × FileIdentity) := [("fa", idyA), ("fb", idyB)]

/-- Store after registering both files. -/
def dbTwoSamples : Db :=
  (register_sample (register_sample emptyDb fsAB false (.file "fa")).2 fsAB false
    (.file "fb")).2

/-- Claim C3 counterexample: no uniqueness is enforced on the strongest digest
in the spec's sense (the longest one, sha512): after two successful
register_sample calls two Sample rows share the same sha512.  The unique
index the schema enforces is on sha256. -/
theorem strongest_digest_not_unique :
    dbTwoSamples.samples.map (fun s => s.sha512) = ["sha512-same", "sha512-same"] ∧
    ¬ (dbTwoSamples.samples.map (fun s => s.sha512)).Nodup ∧
    (dbTwoSamples.samples.map (fun s => s.sha256)).Nodup :=
  ⟨rfl, by decide, by decide⟩

/-- Claim C3 amended: the digest unique across Sample rows is sha256, not the
longest digest.  register_sample and add both preserve pairwise distinctness
of sha256, and for content never seen before the first submission inserts
exactly one row while an identical second submission receives the surviving
row's id (re-read via md5 after the uniqueness violation), leaving the store
unchanged. -/
theorem sha256_unique_and_dedup_returns_survivor
    (db : Db) (now : Nat) (fs : List (String × FileIdentity)) (scf tcf cf : Bool)
    (obj : SubObj) (timeout : Nat) (package options : String) (priority : Int)
    (custom machine platform : String) (tags : Option String)
    (memory enforce_timeout : Bool) (clock : Option ClockVal)
    (parent_id sample_parent_id : Option Nat) (p : String) :
    (db.samples.Pairwise (fun a b => a.sha256 ≠ b.sha256) →
      ((register_sample db fs cf obj).2).samples.Pairwise
        (fun a b => a.sha256 ≠ b.sha256)) ∧
    (db.samples.Pairwise (fun a b => a.sha256 ≠ b.sha256) →
      ((add db now fs scf tcf obj timeout package options priority custom machine platform
          tags memory enforce_timeout clock parent_id sample_parent_id).2).samples.Pairwise
        (fun a b => a.sha256 ≠ b.sha256)) ∧
    (db.samples.any (fun s => s.sha256 == (fsIdentity fs p).sha256) = false →
     db.samples.any (fun s => s.md5 == (fsIdentity fs p).md5) = false →
      register_sample db fs false (.file p) =
        (.ok (some db.nextSampleId),
         { db with
             samples := db.samples ++ [mkSample db.nextSampleId (fsIdentity fs p) none],
             nextSampleId := db.nextSampleId + 1 }) ∧
      register_sample
          { db with
              samples := db.samples ++ [mkSample db.nextSampleId (fsIdentity fs p) none],
              nextSampleId := db.nextSampleId + 1 } fs false (.file p) =
        (.ok (some db.nextSampleId),
         { db with
             samples := db.samples ++ [mkSample db.nextSampleId (fsIdentity fs p) none],
             nextSampleId := db.nextSampleId + 1 })) := by
  refine ⟨register_sample_pairwise db fs cf obj,
    add_samples_pairwise db now fs scf tcf obj timeout package options priority custom
      machine platform tags memory enforce_timeout clock parent_id sample_parent_id,
    ?_⟩
  intro hsha hmd5
  have hsi : sampleInsert db (fsIdentity fs p) none false =
      (.committed (mkSample db.nextSampleId (fsIdentity fs p) none),
       { db with
           samples := db.samples ++ [mkSample db.nextSampleId (fsIdentity fs p) none],
           nextSampleId := db.nextSampleId + 1 }) := by
    unfold sampleInsert
    rw [hsha]
    rfl
  constructor
  · unfold register_sample
    simp only [hsi]
    rfl
  · have hany2 : (db.samples ++ [mkSample db.nextSampleId (fsIdentity fs p) none]).any
        (fun s => s.sha256 == (fsIdentity fs p).sha256) = true := by
      rw [List.any_append]
      simp [mkSample]
    have hfind2 : (db.samples ++ [mkSample db.nextSampleId (fsIdentity fs p) none]).find?
        (fun s => s.md5 == (fsIdentity fs p).md5) =
        some (mkSample db.nextSampleId (fsIdentity fs p) none) := by
      rw [find?_append_left_none (all_eq_false_of_any_eq_false hmd5)]
      simp [List.find?, mkSample]
    have hsi2 : sampleInsert
        { db with
            samples := db.samples ++ [mkSample db.nextSampleId (fsIdentity fs p) none],
            nextSampleId := db.nextSampleId + 1 } (fsIdentity fs p) none false =
        (.dedup (mkSample db.nextSampleId (fsIdentity fs p) none),
         { db with
             samples := db.samples ++ [mkSample db.nextSampleId (fsIdentity fs p) none],
             nextSampleId := db.nextSampleId + 1 }) := by
      unfold sampleInsert
      rw [if_pos hany2, hfind2]
    unfold register_sample
    simp only [hsi2]
    rfl

/-- Witness for the amended C3 theorem: registering the same never-seen
content twice at a concrete store yields one row and the same id twice. -/
theorem sha256_unique_and_dedup_returns_survivor_witness :
    emptyDb.samples.any (fun s => s.sha256 == (fsIdentity fsAB "fa").sha256) = false ∧
    emptyDb.samples.any (fun s => s.md5 == (fsIdentity fsAB "fa").md5) = false ∧
    register_sample
        { emptyDb with
            samples := emptyDb.samples ++ [mkSample emptyDb.nextSampleId (fsIdentity fsAB "fa") none],
            nextSampleId := emptyDb.nextSampleId + 1 } fsAB false (.file "fa") =
      (.ok (some emptyDb.nextSampleId),
       { emptyDb with
           samples := emptyDb.samples ++ [mkSample emptyDb.nextSampleId (fsIdentity fsAB "fa") none],
           nextSampleId := emptyDb.nextSampleId + 1 }) :=
  ⟨rfl, rfl,
    ((sha256_unique_and_dedup_returns_survivor emptyDb 0 fsAB false false false (.file "fa")
        0 "" "" 1 "" "" "" none false false none none none "fa").2.2 rfl rfl).2⟩

section AddLemmas

lemma add_url_spec (db : Db) (now : Nat) (fs : List (String × FileIdentity)) (scf : Bool)
    (u : String) (timeout : Nat) (package options : String) (priority : Int)
    (custom machine platform : String) (tags : Option String)
    (memory enforce_timeout : Bool) (clock : Option ClockVal)
    (parent_id sample_parent_id : Option Nat) :
    add db now fs scf false (.url u) timeout package options priority custom machine
        platform tags memory enforce_timeout clock parent_id sample_parent_id =
      (.ok (some db.nextTaskId),
       { db with
           tasks := db.tasks ++ [mkTask db.nextTaskId u .url timeout package options
             (if priority == 0 then 1 else priority) custom machine platform (pyTags tags)
             memory enforce_timeout (resolveClock clock) now none none parent_id],
           nextTaskId := db.nextTaskId + 1 }) := rfl

end AddLemmas

/-- Claim C8: a clock string accepted by strptime under "%m-%d-%Y %H:%M:%S" is
stored exactly on the created Task; a rejected clock string falls back to the
epoch sentinel (the warning log is an unmodelled side effect); an unset clock
also defaults to the epoch sentinel; and the spec's two concrete examples. -/
theorem add_clock_resolution
    (db : Db) (now : Nat) (fs : List (String × FileIdentity)) (u : String)
    (timeout : Nat) (package options : String) (priority : Int)
    (custom machine platform : String) (tags : Option String)
    (memory enforce_timeout : Bool) (parent_id : Option Nat)
    (s : String) (d : DateTime) :
    (parseClock s = some d →
      ((add db now fs false false (.url u) timeout package options priority custom machine
          platform tags memory enforce_timeout (some (.str s)) parent_id
          none).2.tasks.getLast?).map (fun t => t.clock) = some d) ∧
    (parseClock s = none →
      ((add db now fs false false (.url u) timeout package options priority custom machine
          platform tags memory enforce_timeout (some (.str s)) parent_id
          none).2.tasks.getLast?).map (fun t => t.clock) = some epochDT) ∧
    (((add db now fs false false (.url u) timeout package options priority custom machine
          platform tags memory enforce_timeout none parent_id
          none).2.tasks.getLast?).map (fun t => t.clock) = some epochDT) ∧
    parseClock "12-31-2024 23:59:00" = some ⟨2024, 12, 31, 23, 59, 0⟩ ∧
    parseClock "not-a-date" = none := by
  have hlast : ∀ clock : Option ClockVal,
      ((add db now fs false false (.url u) timeout package options priority custom machine
          platform tags memory enforce_timeout clock parent_id
          none).2.tasks.getLast?).map (fun t => t.clock) = some (resolveClock clock) := by
    intro clock
    rw [add_url_spec]
    simp only [List.getLast?_concat, Option.map_some']
    rfl
  refine ⟨?_, ?_, ?_, rfl, rfl⟩
  · intro h
    rw [hlast (some (.str s))]
    by_cases hs : s = ""
    · subst hs
      exact Option.noConfusion h
    · have hs' : (s == "") = false := by simpa using hs
      simp [resolveClock, hs', h]
  · intro h
    rw [hlast (some (.str s))]
    by_cases hs : (s == "") = true
    · simp [resolveClock, hs]
    · have hs' : (s == "") = false := by simpa using hs
      simp [resolveClock, hs', h]
  · exact hlast none

/-- Witness for C8: submitting the concrete clock strings of the spec. -/
theorem add_clock_resolution_witness :
    parseClock "12-31-2024 23:59:00" = some ⟨2024, 12, 31, 23, 59, 0⟩ ∧
    ((add emptyDb 0 [] false false (.url "u") 0 "" "" 1 "" "" "" none false false
        (some (.str "12-31-2024 23:59:00")) none none).2.tasks.getLast?).map
      (fun t => t.clock) = some ⟨2024, 12, 31, 23, 59, 0⟩ ∧
    ((add emptyDb 0 [] false false (.url "u") 0 "" "" 1 "" "" "" none false false
        (some (.str "not-a-date")) none none).2.tasks.getLast?).map
      (fun t => t.clock) = some epochDT :=
  ⟨rfl,
   (add_clock_resolution emptyDb 0 [] "u" 0 "" "" 1 "" "" "" none false false none
      "12-31-2024 23:59:00" ⟨2024, 12, 31, 23, 59, 0⟩).1 rfl,
   (add_clock_resolution emptyDb 0 [] "u" 0 "" "" 1 "" "" "" none false false none
      "not-a-date" ⟨2024, 12, 31, 23, 59, 0⟩).2.1 rfl⟩

/-- Identity of the file used by the C9 counterexample. -/
def idyC9 : FileIdentity := ⟨"m9", "c9", "s19", "s2569", "s5129", none, 3, "data"⟩

/-- A file submission into an empty store whose task insert fails. -/
def addFailC9 : DbResult (Option Nat) × Db :=
  add emptyDb 0 [("f", idyC9)] false true (.file "f") 0 "" "" 1 "" "" "" none false
    false none none none

/-- Claim C9 counterexample: a file submission whose task insert fails returns
None — but the store is not as it was before the call: the Sample row
committed earlier in the same add call persists. -/
theorem add_failed_task_commit_keeps_sample :
    addFailC9.1 = .ok none ∧ addFailC9.2 ≠ emptyDb ∧
    addFailC9.2.samples = [mkSample 1 idyC9 none] ∧ addFailC9.2.tasks = [] :=
  ⟨rfl, by decide, rfl, rfl⟩

/-- Claim C9 amended: a store-level failure of add is caught and reported as
None; a failing URL task insert leaves the store unchanged, and a failing
sample insert leaves the store unchanged — but when a file-bearing
submission commits a new Sample row and then fails at the task insert, only
the task insert is rolled back: the Sample row persists. -/
theorem add_failure_rollback
    (db : Db) (now : Nat) (fs : List (String × FileIdentity)) (scf : Bool)
    (u p : String) (timeout : Nat) (package options : String) (priority : Int)
    (custom machine platform : String) (tags : Option String)
    (memory enforce_timeout : Bool) (clock : Option ClockVal)
    (parent_id sample_parent_id : Option Nat) :
    (add db now fs scf true (.url u) timeout package options priority custom machine
        platform tags memory enforce_timeout clock parent_id sample_parent_id =
      (.ok none, db)) ∧
    (db.samples.any (fun s => s.sha256 == (fsIdentity fs p).sha256) = false →
      add db now fs false true (.file p) timeout package options priority custom machine
          platform tags memory enforce_timeout clock parent_id sample_parent_id =
        (.ok none,
         { db with
             samples := db.samples ++
               [mkSample db.nextSampleId (fsIdentity fs p) sample_parent_id],
             nextSampleId := db.nextSampleId + 1 })) ∧
    (db.samples.any (fun s => s.sha256 == (fsIdentity fs p).sha256) = false →
      add db now fs true true (.file p) timeout package options priority custom machine
          platform tags memory enforce_timeout clock parent_id sample_parent_id =
        (.ok none, db)) := by
  refine ⟨rfl, ?_, ?_⟩
  · intro hsha
    have hsi : sampleInsert db (fsIdentity fs p) sample_parent_id false =
        (.committed (mkSample db.nextSampleId (fsIdentity fs p) sample_parent_id),
         { db with
             samples := db.samples ++
               [mkSample db.nextSampleId (fsIdentity fs p) sample_parent_id],
             nextSampleId := db.nextSampleId + 1 }) := by
      unfold sampleInsert
      rw [hsha]
      rfl
    unfold add
    simp only [targetOf, hsi]
    rfl
  · intro hsha
    have hsi : sampleInsert db (fsIdentity fs p) sample_parent_id true =
        (.failed, db) := by
      unfold sampleInsert
      rw [hsha]
      rfl
    unfold add
    simp only [targetOf, hsi]

/-- Witness for the amended C9 theorem at the empty store. -/
theorem add_failure_rollback_witness :
    (emptyDb.samples.any (fun s => s.sha256 == (fsIdentity [("f", idyC9)] "f").sha256)
      = false) ∧
    add emptyDb 0 [("f", idyC9)] false true (.file "f") 0 "" "" 1 "" "" "" none false
        false none none none =
      (.ok none,
       { emptyDb with
           samples := emptyDb.samples ++
             [mkSample emptyDb.nextSampleId (fsIdentity [("f", idyC9)] "f") none],
           nextSampleId := emptyDb.nextSampleId + 1 }) :=
  ⟨rfl,
   (add_failure_rollback emptyDb 0 [("f", idyC9)] false "u" "f" 0 "" "" 1 "" "" "" none
      false false none none none).2.1 rfl⟩

/-- Claim C10: add_path returns None without creating any Task or Sample row
when the given file path is falsy (None or "") or no file exists at it. -/
theorem add_path_rejects_missing_file
    (db : Db) (now : Nat) (fs : List (String × FileIdentity)) (scf tcf : Bool)
    (timeout : Nat) (package options : String) (priority : Int)
    (custom machine platform : String) (tags : Option String)
    (memory enforce_timeout : Bool) (clock : Option ClockVal)
    (parent_id sample_parent_id : Option Nat) (p : String) :
    (add_path db now fs scf tcf none timeout package options priority custom machine
        platform tags memory enforce_timeout clock parent_id sample_parent_id =
      (.ok none, db)) ∧
    (add_path db now fs scf tcf (some "") timeout package options priority custom machine
        platform tags memory enforce_timeout clock parent_id sample_parent_id =
      (.ok none, db)) ∧
    (fsExists fs p = false →
      add_path db now fs scf tcf (some p) timeout package options priority custom machine
          platform tags memory enforce_timeout clock parent_id sample_parent_id =
        (.ok none, db)) := by
  refine ⟨rfl, rfl, ?_⟩
  intro hp
  simp [add_path, hp]

/-- Witness for C10: a path absent from the filesystem is rejected with the
store untouched. -/
theorem add_path_rejects_missing_file_witness :
    fsExists [] "ghost" = false ∧
    add_path emptyDb 0 [] false false (some "ghost") 0 "" "" 1 "" "" "" none false
        false none none none = (.ok none, emptyDb) :=
  ⟨rfl,
   (add_path_rejects_missing_file emptyDb 0 [] false false 0 "" "" 1 "" "" "" none
      false false none none none "ghost").2.2 rfl⟩

section RescheduleLemmas

lemma find?_append_some {α : Type} {p : α → Bool} {l₁ l₂ : List α} {a : α}
    (h : l₁.find? p = some a) : (l₁ ++ l₂).find? p = some a := by
  induction l₁ with
  | nil => cases h
  | cons x l ih =>
    by_cases hx : p x = true
    · simp only [List.find?, hx] at h
      simp only [List.cons_append, List.find?, hx]
      exact h
    · have hx' : p x = false := by simpa using hx
      simp only [List.find?, hx'] at h
      simp only [List.cons_append, List.find?, hx']
      exact ih h

lemma add_nonurl_spec (db : Db) (now : Nat) (fs : List (String × FileIdentity))
    (obj : SubObj) (timeout : Nat) (package options : String) (priority : Int)
    (custom machine platform : String) (tags : Option String)
    (memory enforce_timeout : Bool) (clock : Option ClockVal)
    (parent_id sample_parent_id : Option Nat)
    (hnu : obj.isUrl = false)
    (hres : db.samples.any (fun s => s.sha256 == (fsIdentity fs (targetOf obj)).sha256) = false ∨
      (db.samples.find? (fun s => s.md5 == (fsIdentity fs (targetOf obj)).md5)).isSome) :
    ∃ sid : Nat,
      add db now fs false false obj timeout package options priority custom machine
          platform tags memory enforce_timeout clock parent_id sample_parent_id =
        (.ok (some db.nextTaskId),
         { db with
             tasks := db.tasks ++ [mkTask db.nextTaskId (targetOf obj) (categoryOf obj)
               timeout package options (if priority == 0 then 1 else priority) custom
               machine platform
               (pyTags (tagsWith64 (fsIdentity fs (targetOf obj)).file_type machine tags))
               memory enforce_timeout (resolveClock clock) now (startedAtCreation obj now)
               (some sid) parent_id],
             samples :=
               ((sampleInsert db (fsIdentity fs (targetOf obj)) sample_parent_id false).2).samples,
             nextTaskId := db.nextTaskId + 1,
             nextSampleId :=
               ((sampleInsert db (fsIdentity fs (targetOf obj)) sample_parent_id false).2).nextSampleId }) := by
  by_cases hany :
      db.samples.any (fun s => s.sha256 == (fsIdentity fs (targetOf obj)).sha256) = true
  · have hfound :
        (db.samples.find? (fun s => s.md5 == (fsIdentity fs (targetOf obj)).md5)).isSome := by
      rcases hres with h | h
      · rw [hany] at h
        exact Bool.noConfusion h
      · exact h
    obtain ⟨s, hs⟩ := Option.isSome_iff_exists.mp hfound
    have hsi : sampleInsert db (fsIdentity fs (targetOf obj)) sample_parent_id false =
        (.dedup s, db) := by
      unfold sampleInsert
      rw [if_pos hany, hs]
    refine ⟨s.id, ?_⟩
    rcases obj with p | u | p | p
    · simp only [targetOf] at hsi
      unfold add
      simp only [targetOf, hsi]
      rfl
    · exact Bool.noConfusion hnu
    · simp only [targetOf] at hsi
      unfold add
      simp only [targetOf, hsi]
      rfl
    · simp only [targetOf] at hsi
      unfold add
      simp only [targetOf, hsi]
      rfl
  · have hany' :
        db.samples.any (fun s => s.sha256 == (fsIdentity fs (targetOf obj)).sha256) = false := by
      simpa using hany
    have hsi : sampleInsert db (fsIdentity fs (targetOf obj)) sample_parent_id false =
        (.committed (mkSample db.nextSampleId (fsIdentity fs (targetOf obj)) sample_parent_id),
         { db with
             samples := db.samples ++
               [mkSample db.nextSampleId (fsIdentity fs (targetOf obj)) sample_parent_id],
             nextSampleId := db.nextSampleId + 1 }) := by
      unfold sampleInsert
      rw [hany']
      rfl
    refine ⟨db.nextSampleId, ?_⟩
    rcases obj with p | u | p | p
    · simp only [targetOf] at hsi
      unfold add
      simp only [targetOf, hsi]
      rfl
    · exact Bool.noConfusion hnu
    · simp only [targetOf] at hsi
      unfold add
      simp only [targetOf, hsi]
      rfl
    · simp only [targetOf] at hsi
      unfold add
      simp only [targetOf, hsi]
      rfl

end RescheduleLemmas

/-- started_on of the clone reschedule creates: PCAP and Static tasks are
stamped at creation, file and url tasks are not (Database.add). -/
def startedForCategory (c : Category) (now : Nat) : Option Nat :=
  match c with
  | .pcap => some now
  | .static => some now
  | _ => none

/-- The tag list of the clone reschedule creates: the comma-join of the
original tag names, re-split by add — and for file-bearing categories run
through the 64_bit steering of Database.add, which appends 64_bit again for a
PE32+ file with no requested machine. -/
def rescheduleCloneTags (fs : List (String × FileIdentity)) (task : Task) :
    List String :=
  match task.category with
  | .url => pyTags (reschedTags task)
  | _ =>
    pyTags (tagsWith64 (fsIdentity fs task.target).file_type task.machine
      (reschedTags task))

/-- A file task whose target has vanished from disk. -/
def taskF : Task :=
  mkTask 1 "/tmp/gone.exe" .file 10 "pkg" "opt" 2 "c" "" "win" ["t1"] false false
    epochDT 0 none none none

/-- Store holding only taskF. -/
def dbReschedFile : Db := ⟨[taskF], [], [], 2, 1⟩

/-- Identity of a 64-bit executable. -/
def idyPE : FileIdentity :=
  ⟨"mP", "cP", "s1P", "s256P", "s512P", none, 7, "PE32+ executable (GUI) x86-64"⟩

/-- A file task targeting the 64-bit executable, with no requested machine and
one tag. -/
def taskP : Task :=
  mkTask 1 "/mal.exe" .file 10 "" "" 2 "" "" "" ["t1"] false false epochDT 0 none
    none none

/-- Store holding only taskP. -/
def dbPE : Db := ⟨[taskP], [], [], 2, 1⟩

/-- Filesystem carrying the 64-bit executable. -/
def fsPE : List (String × FileIdentity) := [("/mal.exe", idyPE)]

/-- Claim C7 counterexample: two reachable violations.  (1) Rescheduling an
existing file task whose file no longer exists retires the original to
recovered but creates no new Task: add_path rejects the missing path and
reschedule returns None.  (2) For a PE32+ file task with no requested
machine, the clone does not carry the flattened tag names forward verbatim:
it gains an extra 64_bit tag. -/
theorem reschedule_claim_counterexample :
    dbReschedFile.tasks.find? (fun t => t.id == 1) = some taskF ∧
    (reschedule dbReschedFile 9 [] false false 1).1 = .ok none ∧
    (reschedule dbReschedFile 9 [] false false 1).2.tasks.map
      (fun t => (t.id, t.status)) = [(1, TaskStatus.recovered)] ∧
    taskP.tags = ["t1"] ∧
    ((reschedule dbPE 9 fsPE false false 1).2.tasks.getLast?).map (fun t => t.tags) =
      some ["t1", "64_bit"] :=
  ⟨rfl, rfl, rfl, rfl, rfl⟩

/-- Claim C7 amended: reschedule of an existing Task first sets the original
row to recovered, then re-submits through the submission variant of the
original's category, carrying forward target, timeout, package, options,
priority, custom, machine, platform, the flattened tag names (run through the
64_bit steering of add, which appends 64_bit again for a PE32+ file with no
requested machine), memory, timeout-enforcement flag and clock; the new row
starts at pending with a fresh id.  But for a file-category task whose target
is falsy or no longer on disk, the original is still retired to recovered
while add_path rejects the path: no clone is created and reschedule returns
None.  reschedule of a missing task id returns None. -/
theorem reschedule_recovers_and_clones
    (db : Db) (now : Nat) (fs : List (String × FileIdentity)) (task_id : Nat) :
    (db.tasks.find? (fun t => t.id == task_id) = none →
      reschedule db now fs false false task_id = (.ok none, db)) ∧
    (∀ task, db.tasks.find? (fun t => t.id == task_id) = some task →
      task.category = .file →
      (task.target == "" || !fsExists fs task.target) = true →
      reschedule db now fs false false task_id =
        (.ok none,
         { db with tasks := db.tasks.map (fun r =>
             if r.id == task_id then { r with status := TaskStatus.recovered }
             else r) })) ∧
    (∀ task, db.tasks.find? (fun t => t.id == task_id) = some task →
      (db.tasks.map (fun r => r.id)).Nodup →
      (∀ r ∈ db.tasks, r.id < db.nextTaskId) →
      task.priority ≠ 0 →
      (task.category = .file → task.target ≠ "" ∧ fsExists fs task.target = true) →
      (task.category ≠ .url →
        (db.samples.any (fun s => s.sha256 == (fsIdentity fs task.target).sha256) = false ∨
         (db.samples.find? (fun s => s.md5 == (fsIdentity fs task.target).md5)).isSome)) →
      ∃ sid : Option Nat,
        (reschedule db now fs false false task_id).1 = .ok (some db.nextTaskId) ∧
        (reschedule db now fs false false task_id).2.tasks =
          db.tasks.map (fun r =>
              if r.id == task_id then { r with status := TaskStatus.recovered } else r)
            ++ [mkTask db.nextTaskId task.target task.category task.timeout task.package
                task.options task.priority task.custom task.machine task.platform
                (rescheduleCloneTags fs task) task.memory task.enforce_timeout task.clock
                now (startedForCategory task.category now) sid none] ∧
        (reschedule db now fs false false task_id).2.machines = db.machines ∧
        db.nextTaskId ∉ db.tasks.map (fun r => r.id) ∧
        ((reschedule db now fs false false task_id).2.tasks.find?
            (fun r => r.id == task_id)).map (fun r => r.status) =
          some TaskStatus.recovered) := by
  refine ⟨?_, ?_, ?_⟩
  · intro hfind
    simp only [reschedule, hfind]
  · intro task hfind hcat hcond
    simp only [reschedule, hfind, hcat, add_path, hcond]
    rfl
  · intro task hfind hnd hlt hpri hfile hres
    have hmem : task ∈ db.tasks := List.mem_of_find?_eq_some hfind
    have hid : task.id = task_id := by simpa using List.find?_some hfind
    have hpri' : (task.priority == (0 : Int)) = false := by simpa using hpri
    have hfresh : db.nextTaskId ∉ db.tasks.map (fun r => r.id) := by
      intro hinm
      obtain ⟨r, hr, hrid⟩ := List.mem_map.mp hinm
      exact absurd hrid (Nat.ne_of_lt (hlt r hr))
    have hne_id : (db.nextTaskId == task_id) = false := by
      have h1 : task.id < db.nextTaskId := hlt task hmem
      rw [hid] at h1
      simpa using (Nat.ne_of_lt h1).symm
    have hrecfind : (db.tasks.map (fun r =>
        if r.id == task_id then { r with status := TaskStatus.recovered } else r)).find?
        (fun r => r.id == task_id) = some { task with status := TaskStatus.recovered } :=
      find?_map_update hnd hmem hid rfl
    rcases hcat : task.category with _ | _ | _ | _
    · -- file
      obtain ⟨hne, hfx⟩ := hfile hcat
      have hne' : (task.target == "") = false := by simpa using hne
      have hcond : (task.target == "" || !fsExists fs task.target) = false := by
        rw [hne', hfx]
        rfl
      obtain ⟨sid0, hadd⟩ := add_nonurl_spec
        { db with tasks := db.tasks.map (fun r =>
            if r.id == task_id then { r with status := TaskStatus.recovered } else r) }
        now fs (.file task.target) task.timeout task.package task.options
        (if task.priority == 0 then 1 else task.priority) task.custom task.machine
        task.platform (reschedTags task) task.memory task.enforce_timeout
        (some (.dt task.clock)) none none rfl (by exact hres (by rw [hcat]; exact nofun))
      have hsched : reschedule db now fs false false task_id =
          add { db with tasks := db.tasks.map (fun r =>
              if r.id == task_id then { r with status := TaskStatus.recovered } else r) }
            now fs false false (.file task.target) task.timeout task.package task.options
            (if task.priority == 0 then 1 else task.priority) task.custom task.machine
            task.platform (reschedTags task) task.memory task.enforce_timeout
            (some (.dt task.clock)) none none := by
        simp only [reschedule, hfind, hcat, add_path, hcond, Bool.false_eq_true, if_false]
      rw [hsched, hadd]
      refine ⟨some sid0, rfl, ?_, rfl, hfresh, ?_⟩
      · simp only [rescheduleCloneTags, hcat, targetOf, categoryOf, startedAtCreation,
          hpri', Bool.false_eq_true, if_false]
        rfl
      · rw [find?_append_some hrecfind]
        rfl
    · -- url
      have hsched : reschedule db now fs false false task_id =
          add { db with tasks := db.tasks.map (fun r =>
              if r.id == task_id then { r with status := TaskStatus.recovered } else r) }
            now fs false false (.url task.target) task.timeout task.package task.options
            (if task.priority == 0 then 1 else task.priority) task.custom task.machine
            task.platform (reschedTags task) task.memory task.enforce_timeout
            (some (.dt task.clock)) none none := by
        simp only [reschedule, hfind, hcat, add_url]
      rw [hsched, add_url_spec]
      refine ⟨none, rfl, ?_, rfl, hfresh, ?_⟩
      · simp only [rescheduleCloneTags, hcat, hpri', Bool.false_eq_true, if_false]
        rfl
      · rw [find?_append_some hrecfind]
        rfl
    · -- pcap
      obtain ⟨sid0, hadd⟩ := add_nonurl_spec
        { db with tasks := db.tasks.map (fun r =>
            if r.id == task_id then { r with status := TaskStatus.recovered } else r) }
        now fs (.pcap task.target) task.timeout task.package task.options task.priority
        task.custom task.machine task.platform (reschedTags task) task.memory
        task.enforce_timeout (some (.dt task.clock)) none none rfl
        (by exact hres (by rw [hcat]; exact nofun))
      have hsched : reschedule db now fs false false task_id =
          add { db with tasks := db.tasks.map (fun r =>
              if r.id == task_id then { r with status := TaskStatus.recovered } else r) }
            now fs false false (.pcap task.target) task.timeout task.package task.options
            task.priority task.custom task.machine task.platform (reschedTags task)
            task.memory task.enforce_timeout (some (.dt task.clock)) none none := by
        simp only [reschedule, hfind, hcat, add_pcap]
      rw [hsched, hadd]
      refine ⟨some sid0, rfl, ?_, rfl, hfresh, ?_⟩
      · simp only [rescheduleCloneTags, hcat, targetOf, categoryOf, startedAtCreation,
          hpri', Bool.false_eq_true, if_false]
        rfl
      · rw [find?_append_some hrecfind]
        rfl
    · -- static
      obtain ⟨sid0, hadd⟩ := add_nonurl_spec
        { db with tasks := db.tasks.map (fun r =>
            if r.id == task_id then { r with status := TaskStatus.recovered } else r) }
        now fs (.static task.target) task.timeout task.package task.options task.priority
        task.custom task.machine task.platform (reschedTags task) task.memory
        task.enforce_timeout (some (.dt task.clock)) none none rfl
        (by exact hres (by rw [hcat]; exact nofun))
      have hsched : reschedule db now fs false false task_id =
          add { db with tasks := db.tasks.map (fun r =>
              if r.id == task_id then { r with status := TaskStatus.recovered } else r) }
            now fs false false (.static task.target) task.timeout task.package task.options
            task.priority task.custom task.machine task.platform (reschedTags task)
            task.memory task.enforce_timeout (some (.dt task.clock)) none none := by
        simp only [reschedule, hfind, hcat, add_static]
      rw [hsched, hadd]
      refine ⟨some sid0, rfl, ?_, rfl, hfresh, ?_⟩
      · simp only [rescheduleCloneTags, hcat, targetOf, categoryOf, startedAtCreation,
          hpri', Bool.false_eq_true, if_false]
        rfl
      · rw [find?_append_some hrecfind]
        rfl

/-- A url task with tags, awaiting reschedule. -/
def taskU : Task :=
  mkTask 1 "http://x" .url 10 "pkg" "opt" 2 "c" "m" "win" ["t1", "t2"] true true
    ⟨2020, 1, 2, 3, 4, 5⟩ 0 none none none

/-- Store holding only taskU. -/
def dbResched : Db := ⟨[taskU], [], [], 2, 1⟩

/-- Witness for C7: rescheduling the concrete url task retires it to recovered
and returns the fresh id 2. -/
theorem reschedule_recovers_and_clones_witness :
    dbResched.tasks.find? (fun t => t.id == 1) = some taskU ∧
    (reschedule dbResched 9 [] false false 1).1 = .ok (some 2) ∧
    ((reschedule dbResched 9 [] false false 1).2.tasks.find? (fun r => r.id == 1)).map
      (fun r => r.status) = some TaskStatus.recovered := by
  obtain ⟨sid, h1, h2, h3, h4, h5⟩ :=
    (reschedule_recovers_and_clones dbResched 9 [] 1).2.2 taskU rfl (by decide)
      (by decide) (by decide) (by decide) (by decide)
  refine ⟨rfl, ?_, h5⟩
  rw [h1]
  rfl

end Cape
